import Mathlib

/-!
MovieLand: the search controller of `src/App.jsx`.

A shallow embedding of the `App` component's two asynchronous operations,
`fetchMovies` and `loadTrendingMovies`, and of the view state they update.

* JavaScript strings are sequences of UTF-16 code units (`JSString`).
* The outcomes of the awaited calls (`fetch`, `response.json()`,
  `updateSearchCount`, `getTrendingMovies`) are parameters (`World`).
* Calls to the outside (`fetch`, `updateSearchCount`, `console.error`) are
  recorded in an effect trace.
* An `async` function runs in segments separated by `await`; an overlapping
  execution is a sequence of `Event.search` / `Event.resume` steps, one per
  segment.
-/

namespace MovieLand

/-! ## JavaScript strings -/

/-- A JavaScript string: its UTF-16 code units (each below `0x10000`). -/
abbrev JSString := List Nat

/-- The code units of a string literal of the source. -/
def utf16 (s : String) : JSString :=
  s.toList.flatMap fun c =>
    if c.toNat < 0x10000 then [c.toNat]
    else [0xD800 + (c.toNat - 0x10000) / 0x400, 0xDC00 + (c.toNat - 0x10000) % 0x400]

/-- Leading (high) surrogate code unit. -/
def isLeadSurrogate (c : Nat) : Bool := 0xD800 ≤ c && c ≤ 0xDBFF

/-- Trailing (low) surrogate code unit. -/
def isTrailSurrogate (c : Nat) : Bool := 0xDC00 ≤ c && c ≤ 0xDFFF

/-- The characters `encodeURIComponent` leaves as they are:
`A-Z a-z 0-9 - _ . ! ~ * ' ( )`. -/
def isUnreserved (c : Nat) : Bool :=
  (65 ≤ c && c ≤ 90) || (97 ≤ c && c ≤ 122) || (48 ≤ c && c ≤ 57) ||
  c = 45 || c = 95 || c = 46 || c = 33 || c = 126 || c = 42 || c = 39 || c = 40 || c = 41

/-- The octets of the UTF-8 encoding of a code point. -/
def utf8Encode (cp : Nat) : List Nat :=
  if cp < 0x80 then [cp]
  else if cp < 0x800 then [0xC0 + cp / 0x40, 0x80 + cp % 0x40]
  else if cp < 0x10000 then [0xE0 + cp / 0x1000, 0x80 + cp / 0x40 % 0x40, 0x80 + cp % 0x40]
  else [0xF0 + cp / 0x40000, 0x80 + cp / 0x1000 % 0x40, 0x80 + cp / 0x40 % 0x40,
        0x80 + cp % 0x40]

/-- The code unit of an upper-case hexadecimal digit. -/
def hexDigit (n : Nat) : Nat := if n < 10 then 48 + n else 55 + n

/-- The escape `%XY` of one octet. -/
def percentEncode (octet : Nat) : JSString := [37, hexDigit (octet / 16), hexDigit (octet % 16)]

/-- The escapes of the UTF-8 octets of a code point. -/
def escapeCodePoint (cp : Nat) : JSString := (utf8Encode cp).flatMap percentEncode

/-- The built-in `encodeURIComponent`. It throws a `URIError` (`none`) on a
string with an unpaired surrogate. -/
def encodeURIComponent : JSString → Option JSString
  | [] => some []
  | c :: rest =>
    if isUnreserved c then (encodeURIComponent rest).map (c :: ·)
    else if isLeadSurrogate c then
      match rest with
      | d :: rest' =>
        if isTrailSurrogate d then
          (encodeURIComponent rest').map
            (escapeCodePoint (0x10000 + (c - 0xD800) * 0x400 + (d - 0xDC00)) ++ ·)
        else none
      | [] => none
    else if isTrailSurrogate c then none
    else (encodeURIComponent rest).map (escapeCodePoint c ++ ·)

/-- The built-in `String.prototype.isWellFormed`: no unpaired surrogate. -/
def isWellFormed : JSString → Bool
  | [] => true
  | c :: rest =>
    if isLeadSurrogate c then
      match rest with
      | d :: rest' => isTrailSurrogate d && isWellFormed rest'
      | [] => false
    else if isTrailSurrogate c then false
    else isWellFormed rest

/-! ## Data model -/

/-- Line 8: `API_BASE_URL`. -/
def API_BASE_URL : JSString := utf16 "https://api.themoviedb.org/3"

/-- Line 57: the path and query of the popularity-sorted browse request. -/
def discoverPath : JSString := utf16 "/discover/movie?sort_by=popularity.desc"

/-- Line 56: the path of the text search request, up to the encoded query. -/
def searchPath : JSString := utf16 "/search/movie?query="

/-- Lines 62 and 68: the message of the thrown `Error` and the fallback of
`data.Error || ...`. -/
def failedToFetch : JSString := utf16 "Failed to fetch movies"

/-- Line 80: the message set by the `catch` block. -/
def errorFetching : JSString := utf16 "Error fetching movies. Please try again later."

/-- Line 67: the value `data.Response` is compared with. -/
def falseFlag : JSString := utf16 "False"

/-- The parsed body `data` of a response, an object, with the three
properties `fetchMovies` reads. A property is `none` when the object does not
have it; when present `Response` and `Error` are strings and `results` is an
array of movie objects (`M`). -/
structure ResponseBody (M : Type) where
  Response : Option JSString
  Error : Option JSString
  results : Option (List M)
  deriving DecidableEq, Repr

/-- A settled `fetch`: `response.ok`, and what `await response.json()` gives
(`none`: the promise rejects, the body is not JSON). -/
structure Response (M : Type) where
  ok : Bool
  json : Option (ResponseBody M)
  deriving DecidableEq, Repr

/-- How the calls `fetchMovies` awaits settle. -/
structure World (M : Type) where
  /-- How `fetch(endpoint, API_OPTIONS)` settles; `none`: the promise rejects. -/
  fetch : JSString → Option (Response M)
  /-- How `updateSearchCount(query, movie)` settles; `true`: resolves, `false`: rejects. -/
  updateSearchCount : JSString → M → Bool

/-- The six `useState` cells of `App` (lines 28-33); `M` is a movie of the
API, `T` a document of the trending collection. -/
structure ViewState (M T : Type) where
  searchTerm : JSString
  errorMessage : JSString
  movies : List M
  trendingMovies : List T
  isLoading : Bool
  debouncedSearchTerm : JSString
  deriving DecidableEq, Repr

/-- The initial values of the `useState` cells. -/
def ViewState.initial {M T : Type} : ViewState M T :=
  { searchTerm := [], errorMessage := [], movies := [], trendingMovies := [],
    isLoading := false, debouncedSearchTerm := [] }

/-- A view state that shows `movies` from an earlier search. -/
def ViewState.showing {M T : Type} (movies : List M) : ViewState M T :=
  { searchTerm := [], errorMessage := [], movies := movies, trendingMovies := [],
    isLoading := false, debouncedSearchTerm := [] }

/-- What is thrown inside a `try` block. -/
inductive Thrown
  | uriError          -- `encodeURIComponent` on an unpaired surrogate
  | fetchRejected     -- `await fetch(...)` rejects
  | notOk             -- line 62, `throw new Error('Failed to fetch movies')`
  | jsonRejected      -- `await response.json()` rejects
  | typeError         -- `data.results.length` with `data.results` undefined
  | recorderRejected  -- `await updateSearchCount(...)` rejects
  | trendingRejected  -- `await getTrendingMovies()` rejects
  deriving DecidableEq, Repr

/-- A call that leaves the component. -/
inductive Effect (M : Type)
  | fetch (endpoint : JSString)
  | updateSearchCount (query : JSString) (movie : M)
  | consoleError (error : Thrown)
  deriving DecidableEq, Repr

/-- The endpoints `fetch` was called with, in order. -/
def requests {M : Type} : List (Effect M) → List JSString
  | [] => []
  | .fetch endpoint :: es => endpoint :: requests es
  | _ :: es => requests es

/-- The arguments `updateSearchCount` was called with, in order. -/
def recorderCalls {M : Type} : List (Effect M) → List (JSString × M)
  | [] => []
  | .updateSearchCount query movie :: es => (query, movie) :: recorderCalls es
  | _ :: es => recorderCalls es

/-- A completed run of an `async` function: the view state it leaves, the
outside calls it made, and whether its promise rejected. -/
structure Run (M T : Type) where
  view : ViewState M T
  effects : List (Effect M)
  rejected : Bool
  deriving DecidableEq, Repr

/-! ## `fetchMovies` (lines 50-84) -/

/-- Lines 55-57: the endpoint; `none` when `encodeURIComponent` throws. An
empty string is the only falsy `query`. -/
def endpoint (query : JSString) : Option JSString :=
  if query ≠ [] then
    (encodeURIComponent query).map fun encoded => API_BASE_URL ++ searchPath ++ encoded
  else
    some (API_BASE_URL ++ discoverPath)

/-- The state of a `try` block when control leaves it: by reaching its end
or `return` (`thrown = none`), or by an exception. -/
structure TryResult (M T : Type) where
  view : ViewState M T
  effects : List (Effect M)
  thrown : Option Thrown
  deriving DecidableEq, Repr

/-- Line 68: `data.Error || 'Failed to fetch movies'` (an absent or empty
`Error` is falsy). -/
def errorOrFallback (error : Option JSString) : JSString :=
  match error with
  | some message => if message ≠ [] then message else failedToFetch
  | none => failedToFetch

/-- Lines 59-77: the `try` block from the point where `await fetch(endpoint,
API_OPTIONS)` settles with `settled`. -/
def afterFetch {M T : Type} (query : JSString) (settled : Option (Response M))
    (updateSearchCount : JSString → M → Bool) (s : ViewState M T) : TryResult M T :=
  match settled with
  | none => ⟨s, [], some .fetchRejected⟩
  | some response =>
    if !response.ok then ⟨s, [], some .notOk⟩
    else
      match response.json with
      | none => ⟨s, [], some .jsonRejected⟩
      | some data =>
        if data.Response = some falseFlag then
          ⟨{ s with errorMessage := errorOrFallback data.Error, movies := [] }, [], none⟩
        else if query ≠ [] then
          match data.results with
          | none => ⟨s, [], some .typeError⟩
          | some [] => ⟨{ s with movies := [] }, [], none⟩
          | some (top :: rest) =>
            if updateSearchCount query top then
              ⟨{ s with movies := top :: rest }, [.updateSearchCount query top], none⟩
            else
              ⟨s, [.updateSearchCount query top], some .recorderRejected⟩
        else
          ⟨{ s with movies := data.results.getD [] }, [], none⟩

/-- Lines 78-83: the `catch` and `finally` blocks, entered from the `try`
block; the promise of `fetchMovies` never rejects. -/
def catchFinally {M T : Type} (r : TryResult M T) : Run M T :=
  match r.thrown with
  | some error =>
    { view := { r.view with errorMessage := errorFetching, isLoading := false },
      effects := r.effects ++ [.consoleError error], rejected := false }
  | none =>
    { view := { r.view with isLoading := false }, effects := r.effects, rejected := false }

/-- Lines 51-52: the two state updates before the `try` block. -/
def beginFetch {M T : Type} (s : ViewState M T) : ViewState M T :=
  { s with isLoading := true, errorMessage := [] }

/-- The last segment of a call of `fetchMovies` that is suspended at
`await fetch(endpoint, API_OPTIONS)`: it runs on the view state `s` of the
moment the awaited calls have settled. -/
def fetchMoviesResume {M T : Type} (query url : JSString) (w : World M)
    (s : ViewState M T) : Run M T :=
  catchFinally (afterFetch query (w.fetch url) w.updateSearchCount s)

/-- The call `fetchMovies(query)`, run without another state update in between. -/
def fetchMovies {M T : Type} (query : JSString) (w : World M) (s : ViewState M T) :
    Run M T :=
  match endpoint query with
  | none => catchFinally ⟨beginFetch s, [], some .uriError⟩
  | some url =>
    let r := fetchMoviesResume query url w (beginFetch s)
    { r with effects := .fetch url :: r.effects }

/-! ## `loadTrendingMovies` (lines 40-48) -/

/-- The call `loadTrendingMovies()`; `getTrendingMovies` is how the awaited
call settles (`none`: it rejects). -/
def loadTrendingMovies {M T : Type} (getTrendingMovies : Option (List T))
    (s : ViewState M T) : Run M T :=
  match getTrendingMovies with
  | some movies => { view := { s with trendingMovies := movies }, effects := [], rejected := false }
  | none => { view := s, effects := [.consoleError .trendingRejected], rejected := false }

/-! ## The controller: overlapping calls -/

/-- The `await` at which a call of `fetchMovies` is suspended, with the values
the rest of the call uses. -/
inductive Stage (M : Type)
  /-- Line 59: `await fetch(endpoint, API_OPTIONS)`. -/
  | awaitingFetch
  /-- Line 65: `await response.json()`; `json` is what it settles to. -/
  | awaitingJson (json : Option (ResponseBody M))
  /-- Line 74: `await updateSearchCount(query, data.results[0])`. -/
  | awaitingRecorder (data : ResponseBody M) (top : M)

/-- A suspended call of `fetchMovies`: the number of the call, its argument,
the endpoint it requested, how the promises it awaits settle, and where it is
suspended. -/
structure Pending (M : Type) where
  id : Nat
  query : JSString
  url : JSString
  world : World M
  stage : Stage M

/-- What a resumed call does: it is suspended at its next `await`, or it runs
to its end. -/
inductive Segment (M T : Type)
  | suspended (stage : Stage M) (effects : List (Effect M))
  | completed (run : Run M T)

/-- One segment of a suspended call, run on the view state `s`: from the
`await` that has settled to the next `await` or, through the `catch` and
`finally` blocks, to the end (lines 59-83). -/
def Pending.resume {M T : Type} (p : Pending M) (s : ViewState M T) : Segment M T :=
  match p.stage with
  | .awaitingFetch =>
    match p.world.fetch p.url with
    | none => .completed (catchFinally ⟨s, [], some .fetchRejected⟩)
    | some response =>
      if !response.ok then .completed (catchFinally ⟨s, [], some .notOk⟩)
      else .suspended (.awaitingJson response.json) []
  | .awaitingJson json =>
    match json with
    | none => .completed (catchFinally ⟨s, [], some .jsonRejected⟩)
    | some data =>
      if data.Response = some falseFlag then
        .completed (catchFinally
          ⟨{ s with errorMessage := errorOrFallback data.Error, movies := [] }, [], none⟩)
      else if p.query ≠ [] then
        match data.results with
        | none => .completed (catchFinally ⟨s, [], some .typeError⟩)
        | some [] => .completed (catchFinally ⟨{ s with movies := [] }, [], none⟩)
        | some (top :: _) =>
          .suspended (.awaitingRecorder data top) [.updateSearchCount p.query top]
      else
        .completed (catchFinally ⟨{ s with movies := data.results.getD [] }, [], none⟩)
  | .awaitingRecorder data top =>
    if p.world.updateSearchCount p.query top then
      .completed (catchFinally ⟨{ s with movies := data.results.getD [] }, [], none⟩)
    else
      .completed (catchFinally ⟨s, [], some .recorderRejected⟩)

/-- The component between two event-loop turns: its view state, the
`fetchMovies` calls still outstanding (oldest first), the outside calls made
so far and the number of `fetchMovies` calls made so far. -/
structure Controller (M T : Type) where
  view : ViewState M T
  outstanding : List (Pending M)
  effects : List (Effect M)
  calls : Nat

/-- The component with the view state `s` and no call made yet. -/
def Controller.ofView {M T : Type} (s : ViewState M T) : Controller M T :=
  { view := s, outstanding := [], effects := [], calls := 0 }

/-- The component after its first render, before any effect has run. -/
def Controller.initial {M T : Type} : Controller M T :=
  { view := ViewState.initial, outstanding := [], effects := [], calls := 0 }

/-- Line 87, first segment: `fetchMovies(query)` is called and runs until it
is suspended at `await fetch(...)`, or to its end when `encodeURIComponent`
throws; `w` is how the promises the call awaits will settle. -/
def Controller.startSearch {M T : Type} (c : Controller M T) (query : JSString)
    (w : World M) : Controller M T :=
  match endpoint query with
  | none =>
    let r := catchFinally ⟨beginFetch c.view, [], some .uriError⟩
    { c with view := r.view, effects := c.effects ++ r.effects, calls := c.calls + 1 }
  | some url =>
    { view := beginFetch c.view,
      outstanding := c.outstanding ++ [⟨c.calls, query, url, w, .awaitingFetch⟩],
      effects := c.effects ++ [.fetch url], calls := c.calls + 1 }

/-- The first call numbered `id` in a list of outstanding calls runs its next
segment on `view`: the list after it, and what the call did; `none` when no
such call is outstanding. -/
def resumeFirst {M T : Type} (id : Nat) (view : ViewState M T) :
    List (Pending M) → Option (List (Pending M) × Segment M T)
  | [] => none
  | p :: ps =>
    if p.id = id then
      match p.resume view with
      | .suspended stage effects =>
        some ({ p with stage := stage } :: ps, .suspended stage effects)
      | .completed r => some (ps, .completed r)
    else
      match resumeFirst id view ps with
      | none => none
      | some (qs, segment) => some (p :: qs, segment)

/-- One event-loop turn of the component. -/
inductive Event (M T : Type)
  /-- Line 105: the search box calls `setSearchTerm(value)`. -/
  | setSearchTerm (value : JSString)
  /-- Line 38: the callback given to `useDebounce` runs,
  `setDebouncedSearchTerm(searchTerm)`; when the value changes, the effect of
  lines 86-88 calls `fetchMovies(debouncedSearchTerm)`. -/
  | debounce (w : World M)
  /-- Line 87: `fetchMovies(query)` is called and runs to its first `await`. -/
  | search (query : JSString) (w : World M)
  /-- The promise awaited by the call numbered `id` settles, and the call runs
  to its next `await` or to its end. -/
  | resume (id : Nat)
  /-- Line 91: `loadTrendingMovies()`, with how `getTrendingMovies()` settles. -/
  | loadTrending (getTrendingMovies : Option (List T))

/-- The effect of one event. -/
def Controller.step {M T : Type} (c : Controller M T) : Event M T → Controller M T
  | .setSearchTerm value => { c with view := { c.view with searchTerm := value } }
  | .debounce w =>
    if c.view.debouncedSearchTerm = c.view.searchTerm then c
    else
      Controller.startSearch
        { c with view := { c.view with debouncedSearchTerm := c.view.searchTerm } }
        c.view.searchTerm w
  | .search query w => Controller.startSearch c query w
  | .resume id =>
    match resumeFirst id c.view c.outstanding with
    | none => c
    | some (ps, .suspended _ effects) =>
      { c with outstanding := ps, effects := c.effects ++ effects }
    | some (ps, .completed r) =>
      { c with view := r.view, outstanding := ps, effects := c.effects ++ r.effects }
  | .loadTrending getTrendingMovies =>
    let r := loadTrendingMovies getTrendingMovies c.view
    { c with view := r.view, effects := c.effects ++ r.effects }

/-- The controller after a sequence of events. -/
def Controller.run {M T : Type} (c : Controller M T) (events : List (Event M T)) :
    Controller M T :=
  events.foldl Controller.step c

/-- Whether the call numbered `id` is outstanding. -/
def Controller.isOutstanding {M T : Type} (c : Controller M T) (id : Nat) : Bool :=
  c.outstanding.any fun p => p.id = id

/-- The first outstanding call numbered `id`. -/
def Controller.pending {M T : Type} (c : Controller M T) (id : Nat) : Option (Pending M) :=
  c.outstanding.find? fun p => p.id = id

/-- Two overlapping searches in which the response to `B` arrives first:
`fetchMovies(A)` is called (call 0), then `fetchMovies(B)` (call 1); the
response to `B` arrives and call 1 runs through its awaits to its end; then
the response to `A` arrives and call 0 runs through its awaits to its end. A
call has at most three awaits, and a `resume` of a call that has ended
changes nothing. -/
def answeredInTurn {M T : Type} (A B : JSString) (wA wB : World M) : List (Event M T) :=
  [.search A wA, .search B wB, .resume 1, .resume 1, .resume 1,
    .resume 0, .resume 0, .resume 0]

/-- Whether the next segment of the call numbered `id` is its last one: after
it one call fewer is outstanding. -/
def Controller.completes {M T : Type} (c : Controller M T) (id : Nat) : Bool :=
  decide ((c.step (.resume id)).outstanding.length < c.outstanding.length)

/-- Two overlapping searches from the view state `s`: `fetchMovies(A)` is
called (call 0), then `fetchMovies(B)` (call 1), then `events` happen. -/
def twoCalls {M T : Type} (A B : JSString) (wA wB : World M) (s : ViewState M T)
    (events : List (Event M T)) : Controller M T :=
  ((Controller.ofView s).run [.search A wA, .search B wB]).run events

/-! ## The trend recorder -/

/-- Modelled from the spec: an entry of the trend store behind
`updateSearchCount` of `./appwrite`, which is not under `src/` (§4.3, §6): the
query, its count and the snapshot of its top result. -/
structure TrendingEntry (M : Type) where
  searchTerm : JSString
  count : Nat
  movie : M
  deriving DecidableEq, Repr

/-- Modelled from the spec: the write of `updateSearchCount` of `./appwrite`,
which is not under `src/` (§4.3): the counter keyed by exactly `query` is
incremented by one when there is one, and a counter with count one and the
snapshot of `top` is created otherwise. -/
def incrementOrCreate {M : Type} (query : JSString) (top : M) :
    List (TrendingEntry M) → List (TrendingEntry M)
  | [] => [{ searchTerm := query, count := 1, movie := top }]
  | e :: es =>
    if e.searchTerm = query then { e with count := e.count + 1 } :: es
    else e :: incrementOrCreate query top es

/-- The store a call of the trend recorder leaves, whether it logged an error,
and whether its promise resolves. -/
structure RecorderRun (M : Type) where
  store : List (TrendingEntry M)
  logged : Bool
  resolves : Bool
  deriving DecidableEq, Repr

/-- Modelled from the spec: `updateSearchCount` of `./appwrite`, which is not
under `src/` (§4.3 Trend Recorder): "any persistence-layer error is caught and
logged; it must never propagate to or interrupt the search flow". When the
persistence backend works (`persistenceOk`) the counter is written; when it
fails the error is caught and logged and the store is unchanged; the promise
resolves either way. -/
def updateSearchCount {M : Type} (persistenceOk : Bool) (store : List (TrendingEntry M))
    (query : JSString) (top : M) : RecorderRun M :=
  if persistenceOk then
    { store := incrementOrCreate query top store, logged := false, resolves := true }
  else
    { store := store, logged := true, resolves := true }

/-- The world in which `fetch` settles as in `fetch` and the trend recorder is
the one of the specification, on `store`, with a persistence backend that
works or fails. -/
def World.recording {M : Type} (fetch : JSString → Option (Response M))
    (persistenceOk : Bool) (store : List (TrendingEntry M)) : World M :=
  { fetch := fetch,
    updateSearchCount := fun query top =>
      (MovieLand.updateSearchCount persistenceOk store query top).resolves }

/-! ## Sample worlds -/

/-- A world in which every request is answered `200 OK` with `body`, and the
trend recorder resolves when `recorderOk`. -/
def World.answering {M : Type} (body : ResponseBody M) (recorderOk : Bool) : World M :=
  { fetch := fun _ => some { ok := true, json := some body },
    updateSearchCount := fun _ _ => recorderOk }

/-- A world in which `fetch` rejects. -/
def World.offline {M : Type} : World M :=
  { fetch := fun _ => none, updateSearchCount := fun _ _ => true }

/-- A world in which every request is answered with a status that is not OK. -/
def World.serverError {M : Type} : World M :=
  { fetch := fun _ => some { ok := false, json := none },
    updateSearchCount := fun _ _ => true }

/-- A body with a `results` array and no failure flag. -/
def ResponseBody.ofResults {M : Type} (results : List M) : ResponseBody M :=
  { Response := none, Error := none, results := some results }

/-- A body with the failure flag `Response: "False"` and `Error: error`. -/
def ResponseBody.failure {M : Type} (error : Option JSString) : ResponseBody M :=
  { Response := some falseFlag, Error := error, results := none }

/-! ## Vocabulary of the properties -/

/-- The request of `fetchMovies(query)` is answered in `w` with HTTP OK and
the JSON body `data`. -/
def AnsweredWith {M : Type} (query : JSString) (w : World M) (data : ResponseBody M) : Prop :=
  ∃ url response, endpoint query = some url ∧ w.fetch url = some response ∧
    response.ok = true ∧ response.json = some data

/-- The search for `query` succeeds in `w` with `results`: HTTP OK, a body
without the failure flag, carrying the array `results`. -/
def SucceedsWith {M : Type} (query : JSString) (w : World M) (results : List M) : Prop :=
  ∃ data, AnsweredWith query w data ∧ data.Response ≠ some falseFlag ∧
    data.results = some results

/-- The stage of a suspended call agrees with its world: the call requested
its endpoint, and it is suspended where the settled promises lead. -/
def Pending.Consistent {M : Type} (p : Pending M) : Prop :=
  endpoint p.query = some p.url ∧
  match p.stage with
  | .awaitingFetch => True
  | .awaitingJson json =>
    ∃ response, p.world.fetch p.url = some response ∧ response.ok = true ∧
      response.json = json
  | .awaitingRecorder data top =>
    ∃ response rest, p.world.fetch p.url = some response ∧ response.ok = true ∧
      response.json = some data ∧ data.Response ≠ some falseFlag ∧ p.query ≠ [] ∧
      data.results = some (top :: rest)

/-- The states two overlapping calls pass through once both have been made,
`A` as call 0 and `B` as call 1 from the view state `s`: both are outstanding
and the view state is the one the calls' first segments left; or only the call
for `A` is, and the view state is the one the search for `B` left; or only the
call for `B` is; or none is. -/
def TwoCallsInv {M T : Type} (A B : JSString) (wA wB : World M) (s : ViewState M T)
    (c : Controller M T) : Prop :=
  (∃ urlA urlB stA stB,
    c.outstanding = [⟨0, A, urlA, wA, stA⟩, ⟨1, B, urlB, wB, stB⟩] ∧
    Pending.Consistent ⟨0, A, urlA, wA, stA⟩ ∧ Pending.Consistent ⟨1, B, urlB, wB, stB⟩ ∧
    c.view = beginFetch s) ∨
  (∃ urlA stA, c.outstanding = [⟨0, A, urlA, wA, stA⟩] ∧
    Pending.Consistent ⟨0, A, urlA, wA, stA⟩ ∧ c.view = (fetchMovies B wB s).view) ∨
  (∃ urlB stB, c.outstanding = [⟨1, B, urlB, wB, stB⟩]) ∨
  c.outstanding = []

/-! ## Lemmas on strings and endpoints -/

theorem isUnreserved_lt (c : Nat) (h : isUnreserved c = true) : c < 0xD800 := by
  simp only [isUnreserved, Bool.or_eq_true, Bool.and_eq_true, decide_eq_true_eq] at h
  omega

theorem not_surrogate_of_lt (c : Nat) (h : c < 0xD800) :
    isLeadSurrogate c = false ∧ isTrailSurrogate c = false := by
  simp only [isLeadSurrogate, isTrailSurrogate, Bool.and_eq_false_imp, decide_eq_true_eq,
    decide_eq_false_iff_not]
  omega

theorem encodeURIComponent_isSome (q : JSString) :
    (encodeURIComponent q).isSome = isWellFormed q := by
  induction q using encodeURIComponent.induct with
  | case1 => rfl
  | case2 c rest hc ih =>
    obtain ⟨h1, h2⟩ := not_surrogate_of_lt c (isUnreserved_lt c hc)
    unfold encodeURIComponent isWellFormed
    simp [hc, h1, h2, ih]
  | case3 c hc hl d rest ht ih =>
    simp [encodeURIComponent, isWellFormed, hc, hl, ht, ih]
  | case4 c hc hl d rest ht =>
    simp [encodeURIComponent, isWellFormed, hc, hl, ht]
  | case5 c hc hl =>
    simp [encodeURIComponent, isWellFormed, hc, hl]
  | case6 c rest hc hl ht =>
    unfold encodeURIComponent isWellFormed
    simp [hc, hl, ht]
  | case7 c rest hc hl ht ih =>
    unfold encodeURIComponent isWellFormed
    simp [hc, hl, ht, ih]

theorem endpoint_nil : endpoint [] = some (API_BASE_URL ++ discoverPath) := by
  simp [endpoint]

theorem endpoint_of_encoded (query encoded : JSString) (hq : query ≠ [])
    (he : encodeURIComponent query = some encoded) :
    endpoint query = some (API_BASE_URL ++ searchPath ++ encoded) := by
  simp [endpoint, hq, he]

theorem endpoint_of_throw (query : JSString) (he : encodeURIComponent query = none) :
    endpoint query = none := by
  have hq : query ≠ [] := by
    rintro rfl
    simp [encodeURIComponent] at he
  simp [endpoint, hq, he]

theorem discover_ne_search (encoded : JSString) :
    API_BASE_URL ++ discoverPath ≠ API_BASE_URL ++ searchPath ++ encoded := by
  intro h
  rw [List.append_assoc] at h
  have h2 := List.append_cancel_left h
  have hd : discoverPath = 47 :: 100 :: utf16 "iscover/movie?sort_by=popularity.desc" := by decide
  have hs : searchPath = 47 :: 115 :: utf16 "earch/movie?query=" := by decide
  rw [hd, hs] at h2
  simp at h2

theorem requests_catchFinally {M T : Type} (r : TryResult M T) :
    requests (catchFinally r).effects = requests r.effects := by
  unfold catchFinally
  cases r.thrown with
  | none => rfl
  | some e =>
    simp only
    induction r.effects with
    | nil => rfl
    | cons x xs ih => cases x <;> simp [requests, ih]

theorem requests_afterFetch {M T : Type} (query : JSString) (settled : Option (Response M))
    (rec : JSString → M → Bool) (s : ViewState M T) :
    requests (afterFetch query settled rec s).effects = [] := by
  unfold afterFetch
  split
  · rfl
  · split
    · rfl
    · split
      · rfl
      · split
        · rfl
        · split
          · split
            · rfl
            · rfl
            · split <;> rfl
          · rfl

theorem fetchMovies_of_endpoint {M T : Type} (query url : JSString) (w : World M)
    (s : ViewState M T) (h : endpoint query = some url) :
    fetchMovies query w s =
      { fetchMoviesResume query url w (beginFetch s) with
        effects := .fetch url :: (fetchMoviesResume query url w (beginFetch s)).effects } := by
  simp [fetchMovies, h]

theorem requests_fetchMovies_of_endpoint {M T : Type} (query url : JSString) (w : World M)
    (s : ViewState M T) (h : endpoint query = some url) :
    requests (fetchMovies query w s).effects = [url] := by
  rw [fetchMovies_of_endpoint query url w s h]
  simp [requests, fetchMoviesResume, requests_catchFinally, requests_afterFetch]

/-! ## C1: the request -/

/-- C1, as amended: for every query string without an unpaired surrogate
`fetchMovies` issues exactly one request; for the empty query its URL is the
discover URL, for a non-empty query `Q` it is the search URL followed by
`encodeURIComponent(Q)`; and the two URLs are never equal. -/
theorem fetchMovies_issues_one_request {M T : Type} (query : JSString) (w : World M)
    (s : ViewState M T) (hwf : isWellFormed query = true) :
    (query = [] →
      requests (fetchMovies query w s).effects = [API_BASE_URL ++ discoverPath]) ∧
    (query ≠ [] → ∃ encoded, encodeURIComponent query = some encoded ∧
      requests (fetchMovies query w s).effects = [API_BASE_URL ++ searchPath ++ encoded]) ∧
    (∀ encoded, API_BASE_URL ++ discoverPath ≠ API_BASE_URL ++ searchPath ++ encoded) := by
  refine ⟨?_, ?_, discover_ne_search⟩
  · rintro rfl
    exact requests_fetchMovies_of_endpoint _ _ w s endpoint_nil
  · intro hq
    have hsome : (encodeURIComponent query).isSome = true := by
      rw [encodeURIComponent_isSome, hwf]
    obtain ⟨encoded, he⟩ := Option.isSome_iff_exists.mp hsome
    exact ⟨encoded, he,
      requests_fetchMovies_of_endpoint _ _ w s (endpoint_of_encoded query encoded hq he)⟩

/-- Witness of C1 as amended: the query `dune`. -/
theorem fetchMovies_issues_one_request_witness :
    isWellFormed (utf16 "dune") = true ∧
    requests (fetchMovies (utf16 "dune") (World.answering (.ofResults [1, 2, 3]) true)
      (ViewState.initial : ViewState Nat Nat)).effects =
      [utf16 "https://api.themoviedb.org/3/search/movie?query=dune"] := by
  refine ⟨by decide, ?_⟩
  obtain ⟨encoded, he, hr⟩ :=
    (fetchMovies_issues_one_request (utf16 "dune")
      (World.answering (.ofResults [1, 2, 3]) true)
      (ViewState.initial : ViewState Nat Nat) (by decide)).2.1 (by decide)
  have h2 : encodeURIComponent (utf16 "dune") = some (utf16 "dune") := by decide
  rw [h2] at he
  cases he
  rw [hr]
  decide

/-- C1, counterexample: on the query made of the single unpaired surrogate
`U+D800`, `encodeURIComponent` throws and `fetchMovies` issues no request. -/
theorem fetchMovies_lone_surrogate_no_request :
    requests (fetchMovies [0xD800] (World.answering (.ofResults [1, 2, 3]) true)
      (ViewState.initial : ViewState Nat Nat)).effects = [] := by
  decide

/-! ## C2: the application-level failure flag -/

theorem fetchMovies_of_answered {M T : Type} (query : JSString) (w : World M)
    (data : ResponseBody M) (s : ViewState M T) (h : AnsweredWith query w data) :
    ∃ url, endpoint query = some url ∧
      fetchMovies query w s =
        { catchFinally (afterFetch query (some ⟨true, some data⟩) w.updateSearchCount
            (beginFetch s)) with
          effects := .fetch url ::
            (catchFinally (afterFetch query (some ⟨true, some data⟩) w.updateSearchCount
              (beginFetch s))).effects } := by
  obtain ⟨url, response, hurl, hfetch, hok, hjson⟩ := h
  refine ⟨url, hurl, ?_⟩
  have hr : response = ⟨true, some data⟩ := by
    cases response
    simp_all
  rw [fetchMovies_of_endpoint query url w s hurl, fetchMoviesResume, hfetch, hr]

theorem endpoint_of_wellFormed (query : JSString) (hwf : isWellFormed query = true) :
    ∃ url, endpoint query = some url := by
  by_cases hq : query = []
  · exact ⟨_, hq ▸ endpoint_nil⟩
  · have hsome : (encodeURIComponent query).isSome = true := by
      rw [encodeURIComponent_isSome, hwf]
    obtain ⟨encoded, he⟩ := Option.isSome_iff_exists.mp hsome
    exact ⟨_, endpoint_of_encoded query encoded hq he⟩

theorem answeredWith_answering {M : Type} (query : JSString) (body : ResponseBody M)
    (recorderOk : Bool) (hwf : isWellFormed query = true) :
    AnsweredWith query (World.answering body recorderOk) body := by
  obtain ⟨url, hurl⟩ := endpoint_of_wellFormed query hwf
  exact ⟨url, _, hurl, rfl, rfl, rfl⟩

/-- C2, as amended: when the response is HTTP OK and its body carries the
failure flag, `fetchMovies` leaves `errorMessage` equal to the body's `Error`
when a non-empty one is supplied, equal to `Failed to fetch movies` when
`Error` is absent or empty, and leaves the movies list empty. -/
theorem fetchMovies_failure_flag {M T : Type} (query : JSString) (w : World M)
    (data : ResponseBody M) (s : ViewState M T) (h : AnsweredWith query w data)
    (hflag : data.Response = some falseFlag) :
    (∀ message, data.Error = some message → message ≠ [] →
      (fetchMovies query w s).view.errorMessage = message) ∧
    (data.Error = none ∨ data.Error = some [] →
      (fetchMovies query w s).view.errorMessage = failedToFetch) ∧
    (fetchMovies query w s).view.movies = [] := by
  obtain ⟨url, -, hrun⟩ := fetchMovies_of_answered query w data s h
  rw [hrun]
  refine ⟨?_, ?_, ?_⟩
  · intro message hm hne
    simp [afterFetch, catchFinally, hflag, errorOrFallback, hm, hne]
  · rintro (hm | hm) <;> simp [afterFetch, catchFinally, hflag, errorOrFallback, hm]
  · simp [afterFetch, catchFinally, hflag]

/-- Witness of C2 as amended: scenario 2 of the specification, the input
`zzzznotamovie` answered with `Response: "False"`, `Error: "no results"`,
from a view state that shows a movie. -/
theorem fetchMovies_failure_flag_witness :
    AnsweredWith (utf16 "zzzznotamovie")
      (World.answering (.failure (some (utf16 "no results"))) true)
      (.failure (some (utf16 "no results")) : ResponseBody Nat) ∧
    (fetchMovies (utf16 "zzzznotamovie")
      (World.answering (.failure (some (utf16 "no results"))) true)
      (ViewState.showing [7] : ViewState Nat Nat)).view.errorMessage =
      utf16 "no results" ∧
    (fetchMovies (utf16 "zzzznotamovie")
      (World.answering (.failure (some (utf16 "no results"))) true)
      (ViewState.showing [7] : ViewState Nat Nat)).view.movies = [] := by
  have ha : AnsweredWith (utf16 "zzzznotamovie")
      (World.answering (.failure (some (utf16 "no results"))) true)
      (.failure (some (utf16 "no results")) : ResponseBody Nat) :=
    answeredWith_answering _ _ _ (by decide)
  have h := fetchMovies_failure_flag (utf16 "zzzznotamovie")
    (World.answering (.failure (some (utf16 "no results"))) true)
    (.failure (some (utf16 "no results")))
    (ViewState.showing [7] : ViewState Nat Nat) ha rfl
  exact ⟨ha, h.1 _ rfl (by decide), h.2.2⟩

/-- C2, counterexample: the body supplies the empty string as `Error`, and
`errorMessage` is the fallback string, not the supplied message. -/
theorem empty_error_gets_fallback :
    (ResponseBody.failure (some []) : ResponseBody Nat).Error = some [] ∧
    (fetchMovies (utf16 "zzzznotamovie") (World.answering (.failure (some [])) true)
      (ViewState.initial : ViewState Nat Nat)).view.errorMessage ≠ [] := by
  decide

/-! ## C3: transport failures -/

/-- C3, the code at the failing input: from a view state that shows a movie,
a search whose `fetch` rejects, and one answered with a status that is not
OK, both set `errorMessage` and leave the movie in the list. -/
theorem fetchMovies_transport_failure_keeps_movies :
    (fetchMovies (utf16 "dune") World.offline
      (ViewState.showing [7] : ViewState Nat Nat)).view.errorMessage = errorFetching ∧
    (fetchMovies (utf16 "dune") World.offline
      (ViewState.showing [7] : ViewState Nat Nat)).view.movies = [7] ∧
    (fetchMovies (utf16 "dune") World.serverError
      (ViewState.showing [7] : ViewState Nat Nat)).view.errorMessage = errorFetching ∧
    (fetchMovies (utf16 "dune") World.serverError
      (ViewState.showing [7] : ViewState Nat Nat)).view.movies = [7] := by
  decide

/-! ## C5: the calls of the trend recorder -/

theorem recorderCalls_append {M : Type} (xs ys : List (Effect M)) :
    recorderCalls (xs ++ ys) = recorderCalls xs ++ recorderCalls ys := by
  induction xs with
  | nil => rfl
  | cons x xs ih => cases x <;> simp [recorderCalls, ih]

theorem recorderCalls_catchFinally {M T : Type} (r : TryResult M T) :
    recorderCalls (catchFinally r).effects = recorderCalls r.effects := by
  unfold catchFinally
  cases r.thrown with
  | none => rfl
  | some e => simp [recorderCalls_append, recorderCalls]

theorem recorderCalls_fetchMovies_of_endpoint {M T : Type} (query url : JSString)
    (w : World M) (s : ViewState M T) (h : endpoint query = some url) :
    recorderCalls (fetchMovies query w s).effects =
      recorderCalls (afterFetch query (w.fetch url) w.updateSearchCount (beginFetch s)).effects := by
  rw [fetchMovies_of_endpoint query url w s h]
  simp [recorderCalls, fetchMoviesResume, recorderCalls_catchFinally]

theorem recorderCalls_fetchMovies_of_throw {M T : Type} (query : JSString)
    (w : World M) (s : ViewState M T) (h : endpoint query = none) :
    recorderCalls (fetchMovies query w s).effects = [] := by
  simp [fetchMovies, h, catchFinally, recorderCalls]

/-- C5: `fetchMovies` calls `updateSearchCount` exactly once, with the query
and the first result, when the query is non-empty and the search succeeds
with at least one result; it never calls it for the empty query, nor when the
search does not succeed with at least one result. -/
theorem fetchMovies_recorder_calls {M T : Type} (query : JSString) (w : World M)
    (s : ViewState M T) :
    (∀ top rest, query ≠ [] → SucceedsWith query w (top :: rest) →
      recorderCalls (fetchMovies query w s).effects = [(query, top)]) ∧
    (query = [] ∨ (¬ ∃ top rest, SucceedsWith query w (top :: rest)) →
      recorderCalls (fetchMovies query w s).effects = []) := by
  constructor
  · rintro top rest hq ⟨data, ⟨url, response, hurl, hfetch, hok, hjson⟩, hflag, hres⟩
    rw [recorderCalls_fetchMovies_of_endpoint query url w s hurl, hfetch]
    cases hrec : w.updateSearchCount query top <;>
      simp [afterFetch, hok, hjson, hflag, hq, hres, hrec, recorderCalls]
  · intro h
    cases hurl : endpoint query with
    | none => exact recorderCalls_fetchMovies_of_throw query w s hurl
    | some url =>
      rw [recorderCalls_fetchMovies_of_endpoint query url w s hurl]
      unfold afterFetch
      split
      · rfl
      · rename_i response hfetch
        split
        · rfl
        · rename_i hok
          split
          · rfl
          · rename_i data hjson
            split
            · rfl
            · rename_i hflag
              split
              · rename_i hq
                split
                · rfl
                · rfl
                · rename_i top rest hres
                  exfalso
                  rcases h with h | h
                  · exact hq h
                  · exact h ⟨top, rest, data, ⟨url, response, hurl, hfetch, by simpa using hok,
                      hjson⟩, hflag, hres⟩
              · rfl

theorem succeedsWith_answering {M : Type} (query : JSString) (results : List M)
    (recorderOk : Bool) (hwf : isWellFormed query = true) :
    SucceedsWith query (World.answering (.ofResults results) recorderOk) results :=
  ⟨_, answeredWith_answering query _ recorderOk hwf, by simp [ResponseBody.ofResults], rfl⟩

/-- Witness of C5: the query `dune` answered with three results is recorded
once with the first of them; the empty query with the same answer is not
recorded. -/
theorem fetchMovies_recorder_calls_witness :
    (utf16 "dune" ≠ [] ∧
      SucceedsWith (utf16 "dune") (World.answering (.ofResults [1, 2, 3]) true) [1, 2, 3] ∧
      recorderCalls (fetchMovies (utf16 "dune") (World.answering (.ofResults [1, 2, 3]) true)
        (ViewState.initial : ViewState Nat Nat)).effects = [(utf16 "dune", 1)]) ∧
    recorderCalls (fetchMovies [] (World.answering (.ofResults [1, 2, 3]) true)
      (ViewState.initial : ViewState Nat Nat)).effects = [] := by
  have hs : SucceedsWith (utf16 "dune") (World.answering (.ofResults [1, 2, 3]) true)
      [1, 2, 3] := succeedsWith_answering _ _ _ (by decide)
  exact ⟨⟨by decide, hs,
      (fetchMovies_recorder_calls (utf16 "dune") (World.answering (.ofResults [1, 2, 3]) true)
        (ViewState.initial : ViewState Nat Nat)).1 1 [2, 3] (by decide) hs⟩,
    (fetchMovies_recorder_calls [] (World.answering (.ofResults [1, 2, 3]) true)
      (ViewState.initial : ViewState Nat Nat)).2 (Or.inl rfl)⟩


/-! ## Segments of a call -/

theorem consistent_of_suspended {M T : Type} (p : Pending M) (s : ViewState M T)
    (stage : Stage M) (effects : List (Effect M)) (hp : p.Consistent)
    (h : p.resume s = .suspended stage effects) :
    Pending.Consistent { p with stage := stage } := by
  obtain ⟨hurl, hst⟩ := hp
  refine ⟨hurl, ?_⟩
  unfold Pending.resume at h
  split at h
  · split at h
    · cases h
    · rename_i response hfetch
      split at h
      · cases h
      · rename_i hok
        cases h
        exact ⟨response, hfetch, by simpa using hok, rfl⟩
  · rename_i json hstage
    rw [hstage] at hst
    obtain ⟨response, hfetch, hok, hjson⟩ := hst
    split at h
    · cases h
    · rename_i data
      split at h
      · cases h
      · rename_i hflag
        split at h
        · rename_i hq
          split at h
          · cases h
          · cases h
          · rename_i top rest hres
            cases h
            exact ⟨response, rest, hfetch, hok, hjson, hflag, hq, hres⟩
        · cases h
  · split at h <;> cases h

theorem view_of_completed {M T : Type} (p : Pending M) (s : ViewState M T) (r : Run M T)
    (hp : p.Consistent) (h : p.resume s = .completed r) :
    r.view = (fetchMoviesResume p.query p.url p.world s).view := by
  obtain ⟨-, hst⟩ := hp
  unfold Pending.resume at h
  unfold fetchMoviesResume afterFetch
  split at h
  · split at h
    · rename_i hfetch
      cases h
      simp [hfetch]
    · rename_i response hfetch
      split at h
      · rename_i hok
        cases h
        simp [hfetch, hok]
      · cases h
  · rename_i json hstage
    rw [hstage] at hst
    obtain ⟨response, hfetch, hok, hjson⟩ := hst
    subst hjson
    split at h
    · rename_i hjson
      cases h
      simp [hfetch, hok, hjson]
    · rename_i data hjson
      split at h
      · rename_i hflag
        cases h
        simp [hfetch, hok, hjson, hflag]
      · rename_i hflag
        split at h
        · rename_i hq
          split at h
          · rename_i hres
            cases h
            simp [hfetch, hok, hjson, hflag, hq, hres]
          · rename_i hres
            cases h
            simp [hfetch, hok, hjson, hflag, hq, hres]
          · cases h
        · rename_i hq
          cases h
          simp [hfetch, hok, hjson, hflag, hq]
  · rename_i data top hstage
    rw [hstage] at hst
    obtain ⟨response, rest, hfetch, hok, hjson, hflag, hq, hres⟩ := hst
    split at h
    · rename_i hrec
      cases h
      simp [hfetch, hok, hjson, hflag, hq, hres, hrec, catchFinally]
    · rename_i hrec
      cases h
      simp [hfetch, hok, hjson, hflag, hq, hres, hrec, catchFinally]

theorem resumeFirst_of_find {M T : Type} (id : Nat) (view : ViewState M T)
    (l : List (Pending M)) (p : Pending M) (h : l.find? (fun q => q.id = id) = some p) :
    ∃ l', resumeFirst id view l = some (l', p.resume view) ∧
      ((∃ stage effects, p.resume view = .suspended stage effects ∧ l'.length = l.length) ∨
       (∃ r, p.resume view = .completed r ∧ l'.length + 1 = l.length)) ∧
      ((∀ q ∈ l, q.Consistent) → ∀ q ∈ l', q.Consistent) := by
  induction l with
  | nil => simp at h
  | cons q qs ih =>
    by_cases hq : q.id = id
    · have hp : q = p := by simpa [List.find?, hq] using h
      subst hp
      cases hseg : q.resume view with
      | suspended stage effects =>
        refine ⟨{ q with stage := stage } :: qs, by simp [resumeFirst, hq, hseg],
          Or.inl ⟨stage, effects, rfl, by simp⟩, ?_⟩
        intro hall x hx
        rcases List.mem_cons.mp hx with rfl | hx
        · exact consistent_of_suspended q view stage effects (hall q (by simp)) hseg
        · exact hall x (by simp [hx])
      | completed r =>
        refine ⟨qs, by simp [resumeFirst, hq, hseg], Or.inr ⟨r, rfl, by simp⟩, ?_⟩
        intro hall x hx
        exact hall x (by simp [hx])
    · have h' : qs.find? (fun q => q.id = id) = some p := by
        simpa [List.find?, hq] using h
      obtain ⟨l', hres, hlen, hcons⟩ := ih h'
      refine ⟨q :: l', by simp [resumeFirst, hq, hres], ?_, ?_⟩
      · rcases hlen with ⟨stage, effects, hseg, hl⟩ | ⟨r, hseg, hl⟩
        · exact Or.inl ⟨stage, effects, hseg, by simp [hl]⟩
        · exact Or.inr ⟨r, hseg, by simp [hl]⟩
      · intro hall x hx
        rcases List.mem_cons.mp hx with rfl | hx
        · exact hall x (by simp)
        · exact hcons (fun y hy => hall y (by simp [hy])) x hx

theorem resumeFirst_none {M T : Type} (id : Nat) (view : ViewState M T)
    (l : List (Pending M)) (h : l.find? (fun q => q.id = id) = none) :
    resumeFirst id view l = none := by
  induction l with
  | nil => rfl
  | cons q qs ih =>
    by_cases hq : q.id = id
    · simp [List.find?, hq] at h
    · have h' : qs.find? (fun q => q.id = id) = none := by simpa [List.find?, hq] using h
      simp [resumeFirst, hq, ih h']

theorem fetchMoviesResume_success {M T : Type} (query url : JSString) (w : World M)
    (R : List M) (s : ViewState M T) (hurl : endpoint query = some url)
    (h : SucceedsWith query w R)
    (hrec : ∀ top rest, query ≠ [] → R = top :: rest → w.updateSearchCount query top = true) :
    (fetchMoviesResume query url w s).view.movies = R ∧
    (fetchMoviesResume query url w s).view.errorMessage = s.errorMessage ∧
    (fetchMoviesResume query url w s).view.isLoading = false := by
  obtain ⟨data, ⟨url', response, hurl', hfetch, hok, hjson⟩, hflag, hres⟩ := h
  rw [hurl] at hurl'
  cases hurl'
  by_cases hq : query = []
  · simp [fetchMoviesResume, afterFetch, catchFinally, hfetch, hok, hjson, hflag, hq, hres]
  · cases R with
    | nil =>
      simp [fetchMoviesResume, afterFetch, catchFinally, hfetch, hok, hjson, hflag, hq, hres]
    | cons top rest =>
      have := hrec top rest hq rfl
      simp [fetchMoviesResume, afterFetch, catchFinally, hfetch, hok, hjson, hflag, hq, hres,
        this]

theorem fetchMoviesResume_flag {M T : Type} (query url : JSString) (w : World M)
    (data : ResponseBody M) (message : JSString) (s : ViewState M T)
    (hurl : endpoint query = some url) (h : AnsweredWith query w data)
    (hflag : data.Response = some falseFlag) (hm : data.Error = some message)
    (hne : message ≠ []) :
    (fetchMoviesResume query url w s).view.movies = [] ∧
    (fetchMoviesResume query url w s).view.errorMessage = message ∧
    (fetchMoviesResume query url w s).view.isLoading = false := by
  obtain ⟨url', response, hurl', hfetch, hok, hjson⟩ := h
  rw [hurl] at hurl'
  cases hurl'
  simp [fetchMoviesResume, afterFetch, catchFinally, hfetch, hok, hjson, hflag,
    errorOrFallback, hm, hne]

theorem step_resume_of_pending {M T : Type} (c : Controller M T) (id : Nat) (p : Pending M)
    (h : c.pending id = some p) :
    ((∃ stage effects, p.resume c.view = .suspended stage effects ∧
        (c.step (.resume id)).view = c.view ∧
        (c.step (.resume id)).outstanding.length = c.outstanding.length) ∨
      (∃ r, p.resume c.view = .completed r ∧ (c.step (.resume id)).view = r.view ∧
        (c.step (.resume id)).outstanding.length + 1 = c.outstanding.length)) ∧
    ((∀ q ∈ c.outstanding, q.Consistent) →
      ∀ q ∈ (c.step (.resume id)).outstanding, q.Consistent) := by
  obtain ⟨l', hres, hlen, hcons⟩ := resumeFirst_of_find id c.view c.outstanding p h
  rcases hlen with ⟨stage, effects, hseg, hl⟩ | ⟨r, hseg, hl⟩
  · rw [hseg] at hres
    refine ⟨Or.inl ⟨stage, effects, hseg, ?_, ?_⟩, ?_⟩
    · simp [Controller.step, hres]
    · simp [Controller.step, hres, hl]
    · simpa [Controller.step, hres] using hcons
  · rw [hseg] at hres
    refine ⟨Or.inr ⟨r, hseg, ?_, ?_⟩, ?_⟩
    · simp [Controller.step, hres]
    · simp [Controller.step, hres, hl]
    · simpa [Controller.step, hres] using hcons

theorem step_consistent {M T : Type} (c : Controller M T) (e : Event M T)
    (h : ∀ q ∈ c.outstanding, q.Consistent) :
    ∀ q ∈ (c.step e).outstanding, q.Consistent := by
  have hstart : ∀ (c : Controller M T) (query : JSString) (w : World M),
      (∀ q ∈ c.outstanding, q.Consistent) →
      ∀ q ∈ (c.startSearch query w).outstanding, q.Consistent := by
    intro c query w h
    simp only [Controller.startSearch]
    cases hurl : endpoint query with
    | none => exact h
    | some url =>
      intro q hq
      rcases List.mem_append.mp hq with hq | hq
      · exact h q hq
      · simp only [List.mem_singleton] at hq
        subst hq
        exact ⟨hurl, trivial⟩
  cases e with
  | setSearchTerm value => exact h
  | debounce w =>
    simp only [Controller.step]
    split
    · exact h
    · exact hstart _ _ _ h
  | search query w => exact hstart c query w h
  | resume id =>
    cases hp : c.pending id with
    | none =>
      have := resumeFirst_none id c.view c.outstanding hp
      simpa [Controller.step, this] using h
    | some p => exact (step_resume_of_pending c id p hp).2 h
  | loadTrending o => cases o <;> exact h

theorem run_consistent {M T : Type} (events : List (Event M T)) (c : Controller M T)
    (h : ∀ q ∈ c.outstanding, q.Consistent) :
    ∀ q ∈ (c.run events).outstanding, q.Consistent := by
  induction events generalizing c with
  | nil => exact h
  | cons e es ih => exact ih (c.step e) (step_consistent c e h)

theorem view_of_completes {M T : Type} (c : Controller M T) (id : Nat) (p : Pending M)
    (hcons : ∀ q ∈ c.outstanding, q.Consistent) (hp : c.pending id = some p)
    (hend : c.completes id = true) :
    endpoint p.query = some p.url ∧
    (c.step (.resume id)).view = (fetchMoviesResume p.query p.url p.world c.view).view := by
  have hmem : p ∈ c.outstanding := List.mem_of_find?_eq_some hp
  have hpc := hcons p hmem
  refine ⟨hpc.1, ?_⟩
  simp only [Controller.completes, decide_eq_true_eq] at hend
  rcases (step_resume_of_pending c id p hp).1 with ⟨stage, effects, -, -, hl⟩ | ⟨r, hseg, hv, -⟩
  · omega
  · rw [hv]
    exact view_of_completed p c.view r hpc hseg

theorem fetchMovies_view_of_endpoint {M T : Type} (query url : JSString) (w : World M)
    (s : ViewState M T) (h : endpoint query = some url) :
    (fetchMovies query w s).view = (fetchMoviesResume query url w (beginFetch s)).view := by
  rw [fetchMovies_of_endpoint query url w s h]

theorem fetchMovies_isolated_success {M T : Type} (query : JSString) (w : World M)
    (R : List M) (s : ViewState M T) (h : SucceedsWith query w R)
    (hrec : ∀ top rest, query ≠ [] → R = top :: rest → w.updateSearchCount query top = true) :
    (fetchMovies query w s).view.movies = R ∧
    (fetchMovies query w s).view.errorMessage = [] ∧
    (fetchMovies query w s).view.isLoading = false := by
  have hurl : ∃ url, endpoint query = some url := by
    obtain ⟨data, ⟨url, response, hurl, -⟩, -⟩ := h
    exact ⟨url, hurl⟩
  obtain ⟨url, hurl⟩ := hurl
  rw [fetchMovies_view_of_endpoint query url w s hurl]
  exact fetchMoviesResume_success query url w R (beginFetch s) hurl h hrec

theorem initial_consistent {M T : Type} (events : List (Event M T)) :
    ∀ q ∈ ((Controller.initial : Controller M T).run events).outstanding, q.Consistent :=
  run_consistent events Controller.initial (by simp [Controller.initial])

theorem run_search_resume {M T : Type} (query : JSString) (w : World M)
    (s : ViewState M T) :
    ((Controller.ofView s).run
      [.search query w, .resume 0, .resume 0, .resume 0]).view = (fetchMovies query w s).view ∧
    ((Controller.ofView s).run
      [.search query w, .resume 0, .resume 0, .resume 0]).effects =
        (fetchMovies query w s).effects := by
  cases hurl : endpoint query with
  | none =>
    simp [Controller.run, Controller.step, Controller.startSearch, Controller.ofView,
      resumeFirst, hurl, fetchMovies]
  | some url =>
    simp only [Controller.run, List.foldl, Controller.step, Controller.startSearch,
      Controller.ofView, hurl, fetchMovies, fetchMoviesResume, afterFetch, List.nil_append]
    cases hfetch : w.fetch url with
    | none => simp [resumeFirst, Pending.resume, hfetch, catchFinally]
    | some response =>
      cases hok : response.ok with
      | false => simp [resumeFirst, Pending.resume, hfetch, hok, catchFinally]
      | true =>
        cases hjson : response.json with
        | none => simp [resumeFirst, Pending.resume, hfetch, hok, hjson, catchFinally]
        | some data =>
          by_cases hflag : data.Response = some falseFlag
          · simp [resumeFirst, Pending.resume, hfetch, hok, hjson, hflag, catchFinally]
          · by_cases hq : query = []
            · simp [resumeFirst, Pending.resume, hfetch, hok, hjson, hflag, hq, catchFinally]
            · cases hres : data.results with
              | none =>
                simp [resumeFirst, Pending.resume, hfetch, hok, hjson, hflag, hq, hres,
                  catchFinally]
              | some results =>
                cases results with
                | nil =>
                  simp [resumeFirst, Pending.resume, hfetch, hok, hjson, hflag, hq, hres,
                    catchFinally]
                | cons top rest =>
                  cases hrec : w.updateSearchCount query top <;>
                    simp [resumeFirst, Pending.resume, hfetch, hok, hjson, hflag, hq, hres,
                      hrec, catchFinally]

/-! ## C7: a successful search -/

/-- C7, as amended: when the response to a call of `fetchMovies` is HTTP OK,
carries no failure flag and carries the results list `R`, and the trend
recorder, when called, resolves, then when the call completes movies equals
`R` and `isLoading` is false, and the completion leaves `errorMessage` as it
finds it; `errorMessage` is empty when the call runs without another state
update in between. The second part holds in every state the controller
reaches, for every outstanding call. -/
theorem fetchMovies_success {M T : Type} (query : JSString) (w : World M)
    (R : List M) (h : SucceedsWith query w R)
    (hrec : ∀ top rest, query ≠ [] → R = top :: rest → w.updateSearchCount query top = true) :
    (∀ s : ViewState M T,
      (fetchMovies query w s).view.movies = R ∧
      (fetchMovies query w s).view.errorMessage = [] ∧
      (fetchMovies query w s).view.isLoading = false) ∧
    (∀ (events : List (Event M T)) (id : Nat) (p : Pending M),
      (Controller.initial.run events).pending id = some p →
      p.query = query → p.world = w →
      (Controller.initial.run events).completes id = true →
      ((Controller.initial.run events).step (.resume id)).view.movies = R ∧
      ((Controller.initial.run events).step (.resume id)).view.errorMessage =
        (Controller.initial.run events).view.errorMessage ∧
      ((Controller.initial.run events).step (.resume id)).view.isLoading = false) := by
  refine ⟨fun s => fetchMovies_isolated_success query w R s h hrec, ?_⟩
  intro events id p hp hq hw hend
  obtain ⟨hurl, hview⟩ := view_of_completes _ id p (initial_consistent events) hp hend
  rw [hview]
  subst hq hw
  exact fetchMoviesResume_success p.query p.url p.world R _ hurl h hrec

/-- Witness of C7 as amended: scenario 1 of the specification, the input `dune`
answered with three results, from a view state that shows a movie; and the
completion of a call for `a` after the `fetch` of a later call for `b` has
rejected. -/
theorem fetchMovies_success_witness :
    SucceedsWith (utf16 "dune") (World.answering (.ofResults [1, 2, 3]) true) [1, 2, 3] ∧
    (∀ top rest, utf16 "dune" ≠ [] → [1, 2, 3] = top :: rest →
      (World.answering (.ofResults [1, 2, 3]) true).updateSearchCount (utf16 "dune") top
        = true) ∧
    ((fetchMovies (utf16 "dune") (World.answering (.ofResults [1, 2, 3]) true)
      (ViewState.showing [7] : ViewState Nat Nat)).view.movies = [1, 2, 3] ∧
    (fetchMovies (utf16 "dune") (World.answering (.ofResults [1, 2, 3]) true)
      (ViewState.showing [7] : ViewState Nat Nat)).view.errorMessage = [] ∧
    (fetchMovies (utf16 "dune") (World.answering (.ofResults [1, 2, 3]) true)
      (ViewState.showing [7] : ViewState Nat Nat)).view.isLoading = false) ∧
    ((((Controller.initial : Controller Nat Nat).run
      [.search (utf16 "dune") (World.answering (.ofResults [1, 2, 3]) true),
        .search (utf16 "b") World.offline, .resume 1, .resume 0, .resume 0]).step
          (.resume 0)).view.movies = [1, 2, 3] ∧
    (((Controller.initial : Controller Nat Nat).run
      [.search (utf16 "dune") (World.answering (.ofResults [1, 2, 3]) true),
        .search (utf16 "b") World.offline, .resume 1, .resume 0, .resume 0]).step
          (.resume 0)).view.errorMessage = errorFetching) := by
  have hs : SucceedsWith (utf16 "dune") (World.answering (.ofResults [1, 2, 3]) true)
      [1, 2, 3] := succeedsWith_answering _ _ _ (by decide)
  have h := @fetchMovies_success Nat Nat (utf16 "dune")
      (World.answering (.ofResults [1, 2, 3]) true) [1, 2, 3] hs (fun _ _ _ _ => rfl)
  have h2 := h.2
    [.search (utf16 "dune") (World.answering (.ofResults [1, 2, 3]) true),
      .search (utf16 "b") World.offline, .resume 1, .resume 0, .resume 0] 0
    ⟨0, utf16 "dune", utf16 "https://api.themoviedb.org/3/search/movie?query=dune",
      World.answering (.ofResults [1, 2, 3]) true, .awaitingRecorder (.ofResults [1, 2, 3]) 1⟩
    rfl rfl rfl (by decide)
  exact ⟨hs, fun _ _ _ _ => rfl, h.1 (ViewState.showing [7] : ViewState Nat Nat),
    h2.1, h2.2.1.trans (by decide)⟩

/-- C7, counterexample: `a` is searched, then `b`; the `fetch` for `b` rejects,
then `a` is answered with the movie 1 and its recorder call resolves. The call
for `a` meets the hypotheses of the claim, every call has completed, and the
view state holds the movie beside a non-empty `errorMessage`. -/
theorem success_beside_error_of_other_call :
    SucceedsWith (utf16 "a") (World.answering (.ofResults [1]) true) [1] ∧
    ((Controller.initial : Controller Nat Nat).run
      (answeredInTurn (utf16 "a") (utf16 "b") (World.answering (.ofResults [1]) true)
        World.offline)).outstanding.length = 0 ∧
    ((Controller.initial : Controller Nat Nat).run
      (answeredInTurn (utf16 "a") (utf16 "b") (World.answering (.ofResults [1]) true)
        World.offline)).view.movies = [1] ∧
    ((Controller.initial : Controller Nat Nat).run
      (answeredInTurn (utf16 "a") (utf16 "b") (World.answering (.ofResults [1]) true)
        World.offline)).view.errorMessage ≠ [] := by
  refine ⟨succeedsWith_answering _ _ _ (by decide), ?_, ?_, ?_⟩ <;> decide

/-! ## C6: the trend recorder of the specification -/

theorem recording_eq {M : Type} (fetch : JSString → Option (Response M))
    (ok : Bool) (store : List (TrendingEntry M)) :
    World.recording fetch ok store = World.recording fetch true store := by
  cases ok
  · simp only [World.recording, updateSearchCount]
    rfl
  · rfl

theorem succeedsWith_recording {M : Type} (query : JSString) (results : List M)
    (ok : Bool) (store : List (TrendingEntry M)) (hwf : isWellFormed query = true) :
    SucceedsWith query
      (World.recording (fun _ => some ⟨true, some (.ofResults results)⟩) ok store) results := by
  obtain ⟨url, hurl⟩ := endpoint_of_wellFormed query hwf
  exact ⟨_, ⟨url, _, hurl, rfl, rfl, rfl⟩, by simp [ResponseBody.ofResults], rfl⟩

/-- C6, as amended, with the trend recorder of the specification (it catches
and logs a failure of the persistence backend, and its promise resolves either
way): for a non-empty query whose search succeeds with at least one result, a
failed write leaves the store as it was and `fetchMovies` runs exactly as with
a write that worked; when the call completes movies is the results list and
`isLoading` is false, and the completion leaves `errorMessage` as it finds it,
in every state the controller reaches; `errorMessage` is empty when the call
runs without another state update in between. -/
theorem fetchMovies_recorder_outcome {M T : Type} (query : JSString)
    (fetch : JSString → Option (Response M)) (store : List (TrendingEntry M))
    (top : M) (rest : List M) (hq : query ≠ [])
    (h : SucceedsWith query (World.recording fetch true store) (top :: rest)) :
    ((updateSearchCount false store query top).resolves = true ∧
      (updateSearchCount false store query top).store = store ∧
      (updateSearchCount false store query top).logged = true) ∧
    (∀ s : ViewState M T,
      fetchMovies query (World.recording fetch false store) s =
        fetchMovies query (World.recording fetch true store) s) ∧
    (∀ (ok : Bool) (s : ViewState M T),
      (fetchMovies query (World.recording fetch ok store) s).view.movies = top :: rest ∧
      (fetchMovies query (World.recording fetch ok store) s).view.errorMessage = [] ∧
      (fetchMovies query (World.recording fetch ok store) s).view.isLoading = false) ∧
    (∀ (ok : Bool) (events : List (Event M T)) (id : Nat) (p : Pending M),
      (Controller.initial.run events).pending id = some p →
      p.query = query → p.world = World.recording fetch ok store →
      (Controller.initial.run events).completes id = true →
      ((Controller.initial.run events).step (.resume id)).view.movies = top :: rest ∧
      ((Controller.initial.run events).step (.resume id)).view.errorMessage =
        (Controller.initial.run events).view.errorMessage ∧
      ((Controller.initial.run events).step (.resume id)).view.isLoading = false) := by
  have hrec : ∀ t r, query ≠ [] → top :: rest = t :: r →
      (World.recording fetch true store).updateSearchCount query t = true :=
    fun _ _ _ _ => rfl
  refine ⟨⟨rfl, rfl, rfl⟩, ?_, ?_, ?_⟩
  · intro s
    rw [recording_eq]
  · intro ok s
    rw [recording_eq]
    exact fetchMovies_isolated_success query _ _ s h hrec
  · intro ok events id p hp hpq hpw hend
    rw [recording_eq] at hpw
    obtain ⟨hurl, hview⟩ := view_of_completes _ id p (initial_consistent events) hp hend
    rw [hview, hpw]
    subst hpq
    exact fetchMoviesResume_success p.query p.url _ _ _ hurl h hrec

/-- Witness of C6 as amended: the query `dune` answered with three results,
with a persistence backend that fails, from a view state that shows a movie. -/
theorem fetchMovies_recorder_outcome_witness :
    utf16 "dune" ≠ [] ∧
    SucceedsWith (utf16 "dune")
      (World.recording (fun _ => some ⟨true, some (.ofResults [1, 2, 3])⟩) true []) [1, 2, 3] ∧
    (fetchMovies (utf16 "dune")
      (World.recording (fun _ => some ⟨true, some (.ofResults [1, 2, 3])⟩) false [])
      (ViewState.showing [7] : ViewState Nat Nat)).view.movies = [1, 2, 3] ∧
    (fetchMovies (utf16 "dune")
      (World.recording (fun _ => some ⟨true, some (.ofResults [1, 2, 3])⟩) false [])
      (ViewState.showing [7] : ViewState Nat Nat)).view.errorMessage = [] := by
  have hs : SucceedsWith (utf16 "dune")
      (World.recording (fun _ => some ⟨true, some (.ofResults [1, 2, 3])⟩) true [])
      [1, 2, 3] :=
    succeedsWith_recording _ _ _ _ (by decide)
  have h := (fetchMovies_recorder_outcome (utf16 "dune")
    (fun _ => some ⟨true, some (.ofResults [1, 2, 3])⟩) [] 1 [2, 3] (by decide) hs).2.2.1
    false (ViewState.showing [7] : ViewState Nat Nat)
  exact ⟨by decide, hs, h.1, h.2.1⟩

/-- C6, counterexample: `a` is searched, then `b`; the `fetch` for `b` rejects,
then `a` is answered with the movie 1 and its recorder call meets a failing
persistence backend. Every call has completed, movies is the results list,
and `errorMessage` is not empty. -/
theorem recorder_failure_beside_error_of_other_call :
    ((Controller.initial : Controller Nat Nat).run
      (answeredInTurn (utf16 "a") (utf16 "b")
        (World.recording (fun _ => some ⟨true, some (.ofResults [1])⟩) false [])
        World.offline)).outstanding.length = 0 ∧
    ((Controller.initial : Controller Nat Nat).run
      (answeredInTurn (utf16 "a") (utf16 "b")
        (World.recording (fun _ => some ⟨true, some (.ofResults [1])⟩) false [])
        World.offline)).view.movies = [1] ∧
    ((Controller.initial : Controller Nat Nat).run
      (answeredInTurn (utf16 "a") (utf16 "b")
        (World.recording (fun _ => some ⟨true, some (.ofResults [1])⟩) false [])
        World.offline)).view.errorMessage ≠ [] := by
  refine ⟨?_, ?_, ?_⟩ <;> decide

/-! ## C4: overlapping searches -/

theorem twoCalls_nil_inv {M T : Type} (A B : JSString) (wA wB : World M)
    (s : ViewState M T) : TwoCallsInv A B wA wB s (twoCalls A B wA wB s []) := by
  cases hA : endpoint A with
  | none =>
    cases hB : endpoint B with
    | none =>
      right; right; right
      simp [twoCalls, Controller.run, Controller.step, Controller.startSearch,
        Controller.ofView, hA, hB]
    | some urlB =>
      right; right; left
      exact ⟨urlB, .awaitingFetch, by
        simp [twoCalls, Controller.run, Controller.step, Controller.startSearch,
          Controller.ofView, hA, hB]⟩
  | some urlA =>
    cases hB : endpoint B with
    | none =>
      right; left
      refine ⟨urlA, .awaitingFetch, ?_, ⟨hA, trivial⟩, ?_⟩
      · simp [twoCalls, Controller.run, Controller.step, Controller.startSearch,
          Controller.ofView, hA, hB]
      · simp [twoCalls, Controller.run, Controller.step, Controller.startSearch,
          Controller.ofView, hA, hB, fetchMovies, beginFetch, catchFinally]
    | some urlB =>
      left
      refine ⟨urlA, urlB, .awaitingFetch, .awaitingFetch, ?_, ⟨hA, trivial⟩, ⟨hB, trivial⟩, ?_⟩
      · simp [twoCalls, Controller.run, Controller.step, Controller.startSearch,
          Controller.ofView, hA, hB]
      · simp [twoCalls, Controller.run, Controller.step, Controller.startSearch,
          Controller.ofView, hA, hB, beginFetch]

theorem twoCalls_step_inv {M T : Type} (A B : JSString) (wA wB : World M)
    (s : ViewState M T) (c : Controller M T) (e : Event M T)
    (he : e = .resume 0 ∨ e = .resume 1) (h : TwoCallsInv A B wA wB s c) :
    TwoCallsInv A B wA wB s (c.step e) := by
  rcases h with ⟨urlA, urlB, stA, stB, hout, hcA, hcB, hview⟩ | ⟨urlA, stA, hout, hcA, hview⟩ |
    ⟨urlB, stB, hout⟩ | hout
  · rcases he with rfl | rfl
    · cases hseg : Pending.resume ⟨0, A, urlA, wA, stA⟩ c.view with
      | suspended stage effects =>
        left
        exact ⟨urlA, urlB, stage, stB, by simp [Controller.step, resumeFirst, hout, hseg],
          consistent_of_suspended _ c.view stage effects hcA hseg, hcB,
          by rw [← hview]; simp [Controller.step, resumeFirst, hout, hseg]⟩
      | completed r =>
        right; right; left
        exact ⟨urlB, stB, by simp [Controller.step, resumeFirst, hout, hseg]⟩
    · cases hseg : Pending.resume ⟨1, B, urlB, wB, stB⟩ c.view with
      | suspended stage effects =>
        left
        exact ⟨urlA, urlB, stA, stage, by simp [Controller.step, resumeFirst, hout, hseg],
          hcA, consistent_of_suspended _ c.view stage effects hcB hseg,
          by rw [← hview]; simp [Controller.step, resumeFirst, hout, hseg]⟩
      | completed r =>
        right; left
        refine ⟨urlA, stA, by simp [Controller.step, resumeFirst, hout, hseg], hcA, ?_⟩
        have hv := view_of_completed _ c.view r hcB hseg
        rw [fetchMovies_view_of_endpoint B urlB wB s hcB.1, ← hview]
        simpa [Controller.step, resumeFirst, hout, hseg] using hv
  · rcases he with rfl | rfl
    · cases hseg : Pending.resume ⟨0, A, urlA, wA, stA⟩ c.view with
      | suspended stage effects =>
        right; left
        exact ⟨urlA, stage, by simp [Controller.step, resumeFirst, hout, hseg],
          consistent_of_suspended _ c.view stage effects hcA hseg,
          by rw [← hview]; simp [Controller.step, resumeFirst, hout, hseg]⟩
      | completed r =>
        right; right; right
        simp [Controller.step, resumeFirst, hout, hseg]
    · right; left
      exact ⟨urlA, stA, by simp [Controller.step, resumeFirst, hout], hcA,
        by rw [← hview]; simp [Controller.step, resumeFirst, hout]⟩
  · rcases he with rfl | rfl
    · right; right; left
      exact ⟨urlB, stB, by simp [Controller.step, resumeFirst, hout]⟩
    · cases hseg : Pending.resume ⟨1, B, urlB, wB, stB⟩ c.view with
      | suspended stage effects =>
        right; right; left
        exact ⟨urlB, stage, by simp [Controller.step, resumeFirst, hout, hseg]⟩
      | completed r =>
        right; right; right
        simp [Controller.step, resumeFirst, hout, hseg]
  · right; right; right
    rcases he with rfl | rfl <;> simp [Controller.step, resumeFirst, hout]

theorem run_twoCalls_inv {M T : Type} (A B : JSString) (wA wB : World M)
    (s : ViewState M T) (events : List (Event M T)) (c : Controller M T)
    (hev : ∀ e ∈ events, e = Event.resume 0 ∨ e = Event.resume 1)
    (h : TwoCallsInv A B wA wB s c) : TwoCallsInv A B wA wB s (c.run events) := by
  induction events generalizing c with
  | nil => exact h
  | cons e es ih =>
    exact ih (c.step e) (fun x hx => hev x (by simp [hx]))
      (twoCalls_step_inv A B wA wB s c e (hev e (by simp)) h)

theorem twoCalls_inv {M T : Type} (A B : JSString) (wA wB : World M)
    (s : ViewState M T) (events : List (Event M T))
    (hev : ∀ e ∈ events, e = Event.resume 0 ∨ e = Event.resume 1) :
    TwoCallsInv A B wA wB s (twoCalls A B wA wB s events) :=
  run_twoCalls_inv A B wA wB s events _ hev (twoCalls_nil_inv A B wA wB s)

theorem twoCalls_last_view {M T : Type} (A B : JSString) (wA wB : World M)
    (s : ViewState M T) (events : List (Event M T))
    (hev : ∀ e ∈ events, e = Event.resume 0 ∨ e = Event.resume 1)
    (hB : (twoCalls A B wA wB s events).isOutstanding 1 = false)
    (hend : (twoCalls A B wA wB s events).completes 0 = true) :
    ∃ urlA, endpoint A = some urlA ∧
      ((twoCalls A B wA wB s events).step (.resume 0)).view =
        (fetchMoviesResume A urlA wA (fetchMovies B wB s).view).view := by
  rcases twoCalls_inv A B wA wB s events hev with
    ⟨urlA, urlB, stA, stB, hout, hcA, hcB, hview⟩ | ⟨urlA, stA, hout, hcA, hview⟩ |
    ⟨urlB, stB, hout⟩ | hout
  · simp [Controller.isOutstanding, hout] at hB
  · have hcons : ∀ q ∈ (twoCalls A B wA wB s events).outstanding, q.Consistent := by
      intro q hq
      rw [hout] at hq
      simp only [List.mem_singleton] at hq
      exact hq ▸ hcA
    have hp : (twoCalls A B wA wB s events).pending 0 = some ⟨0, A, urlA, wA, stA⟩ := by
      simp [Controller.pending, hout]
    obtain ⟨hurl, hv⟩ := view_of_completes _ 0 _ hcons hp hend
    exact ⟨urlA, hurl, by rw [hv, hview]⟩
  · simp [Controller.completes, Controller.step, resumeFirst, hout] at hend
  · simp [Controller.completes, Controller.step, resumeFirst, hout] at hend

/-- C4, as amended: last-completed-wins. Two overlapping searches are issued
for `A` and then `B`, and the segments of the two calls run in any order. When
the call for `A` completes after the call for `B` has completed: if the search
for `A` succeeds with results `R` and its recorder call, when made, resolves,
the final movies list is `R` and the final `errorMessage` is the one left by the
search for `B`; if the response to `A` carries the failure flag with a
non-empty `Error`, the final movies list is empty and the final `errorMessage`
is that `Error`. -/
theorem overlapped_last_completed_wins {M T : Type} (A B : JSString)
    (wA wB : World M) (s : ViewState M T) (events : List (Event M T))
    (hev : ∀ e ∈ events, e = Event.resume 0 ∨ e = Event.resume 1)
    (hB : (twoCalls A B wA wB s events).isOutstanding 1 = false)
    (hend : (twoCalls A B wA wB s events).completes 0 = true) :
    (∀ R, SucceedsWith A wA R →
      (∀ top rest, A ≠ [] → R = top :: rest → wA.updateSearchCount A top = true) →
      ((twoCalls A B wA wB s events).step (.resume 0)).view.movies = R ∧
      ((twoCalls A B wA wB s events).step (.resume 0)).view.errorMessage =
        (fetchMovies B wB s).view.errorMessage ∧
      ((twoCalls A B wA wB s events).step (.resume 0)).view.isLoading = false) ∧
    (∀ data message, AnsweredWith A wA data → data.Response = some falseFlag →
      data.Error = some message → message ≠ [] →
      ((twoCalls A B wA wB s events).step (.resume 0)).view.movies = [] ∧
      ((twoCalls A B wA wB s events).step (.resume 0)).view.errorMessage = message ∧
      ((twoCalls A B wA wB s events).step (.resume 0)).view.isLoading = false) := by
  obtain ⟨urlA, hurl, hv⟩ := twoCalls_last_view A B wA wB s events hev hB hend
  rw [hv]
  exact ⟨fun R h hrec => fetchMoviesResume_success A urlA wA R _ hurl h hrec,
    fun data message h hflag hm hne =>
      fetchMoviesResume_flag A urlA wA data message _ hurl h hflag hm hne⟩

/-- Witness of C4 as amended: `a` is searched, then `b`; the response to `a`
arrives first and is read, then `b` is answered with the movie 2 and its call
runs to its end, and last the recorder call for `a` resolves. The final list
is the answer to `a`. -/
theorem overlapped_last_completed_wins_witness :
    (twoCalls (utf16 "a") (utf16 "b") (World.answering (.ofResults [1]) true)
      (World.answering (.ofResults [2]) true) (ViewState.initial : ViewState Nat Nat)
      [.resume 0, .resume 1, .resume 0, .resume 1, .resume 1]).isOutstanding 1 = false ∧
    (twoCalls (utf16 "a") (utf16 "b") (World.answering (.ofResults [1]) true)
      (World.answering (.ofResults [2]) true) (ViewState.initial : ViewState Nat Nat)
      [.resume 0, .resume 1, .resume 0, .resume 1, .resume 1]).completes 0 = true ∧
    SucceedsWith (utf16 "a") (World.answering (.ofResults [1]) true) [1] ∧
    ((twoCalls (utf16 "a") (utf16 "b") (World.answering (.ofResults [1]) true)
      (World.answering (.ofResults [2]) true) (ViewState.initial : ViewState Nat Nat)
      [.resume 0, .resume 1, .resume 0, .resume 1, .resume 1]).step
        (.resume 0)).view.movies = [1] := by
  have hs : SucceedsWith (utf16 "a") (World.answering (.ofResults [1]) true) [1] :=
    succeedsWith_answering _ _ _ (by decide)
  refine ⟨by decide, by decide, hs, ?_⟩
  exact ((overlapped_last_completed_wins (utf16 "a") (utf16 "b")
    (World.answering (.ofResults [1]) true) (World.answering (.ofResults [2]) true)
    (ViewState.initial : ViewState Nat Nat)
    [.resume 0, .resume 1, .resume 0, .resume 1, .resume 1]
    (by
      intro e he
      simp only [List.mem_cons, List.mem_singleton, List.not_mem_nil, or_false] at he
      rcases he with rfl | rfl | rfl | rfl | rfl <;> simp)
    (by decide) (by decide)).1 [1] hs (fun _ _ _ _ => rfl)).1

/-- C4, counterexample: `a` is searched, then `b`; the response to `b` arrives
first and its call runs to its end with the movie 2, then the response to `a`
arrives and its call runs to its end with the movie 1. The final movies list
is the answer to the superseded query `a`, not the one determined by the
response to `b`. -/
theorem overlapped_stale_response_overwrites :
    ((Controller.initial : Controller Nat Nat).run
      (answeredInTurn (utf16 "a") (utf16 "b") (World.answering (.ofResults [1]) true)
        (World.answering (.ofResults [2]) true))).outstanding.length = 0 ∧
    ((Controller.initial : Controller Nat Nat).run
      (answeredInTurn (utf16 "a") (utf16 "b") (World.answering (.ofResults [1]) true)
        (World.answering (.ofResults [2]) true))).view.movies = [1] ∧
    (fetchMovies (utf16 "b") (World.answering (.ofResults [2]) true)
      (ViewState.initial : ViewState Nat Nat)).view.movies = [2] := by
  refine ⟨?_, ?_, ?_⟩ <;> decide

/-! ## C8: the loading flag -/

theorem isLoading_catchFinally {M T : Type} (r : TryResult M T) :
    (catchFinally r).view.isLoading = false := by
  unfold catchFinally
  split <;> rfl

theorem isLoading_fetchMovies {M T : Type} (query : JSString) (w : World M)
    (s : ViewState M T) : (fetchMovies query w s).view.isLoading = false := by
  unfold fetchMovies
  split
  · exact isLoading_catchFinally _
  · exact isLoading_catchFinally _

theorem isLoading_of_completed {M T : Type} (p : Pending M) (s : ViewState M T)
    (r : Run M T) (h : p.resume s = .completed r) : r.view.isLoading = false := by
  unfold Pending.resume at h
  split at h
  · split at h
    · cases h
      exact isLoading_catchFinally _
    · split at h
      · cases h
        exact isLoading_catchFinally _
      · cases h
  · split at h
    · cases h
      exact isLoading_catchFinally _
    · split at h
      · cases h
        exact isLoading_catchFinally _
      · split at h
        · split at h
          · cases h
            exact isLoading_catchFinally _
          · cases h
            exact isLoading_catchFinally _
          · cases h
        · cases h
          exact isLoading_catchFinally _
  · split at h <;> cases h <;> exact isLoading_catchFinally _

theorem startSearch_loading {M T : Type} (c : Controller M T) (query : JSString)
    (w : World M) :
    (c.startSearch query w).view.isLoading = true →
      (c.startSearch query w).outstanding ≠ [] := by
  simp only [Controller.startSearch]
  cases endpoint query with
  | none =>
    intro hl
    simp [isLoading_catchFinally] at hl
  | some url =>
    intro _
    simp

theorem step_preserves_loading {M T : Type} (c : Controller M T) (e : Event M T)
    (h : c.view.isLoading = true → c.outstanding ≠ []) :
    (c.step e).view.isLoading = true → (c.step e).outstanding ≠ [] := by
  cases e with
  | setSearchTerm value => exact h
  | debounce w =>
    simp only [Controller.step]
    split
    · exact h
    · exact startSearch_loading _ _ _
  | search query w => exact startSearch_loading c query w
  | resume id =>
    cases hp : c.pending id with
    | none =>
      have := resumeFirst_none id c.view c.outstanding hp
      simpa [Controller.step, this] using h
    | some p =>
      rcases (step_resume_of_pending c id p hp).1 with
        ⟨stage, effects, -, hv, hl⟩ | ⟨r, hseg, hv, -⟩
      · intro hload
        rw [hv] at hload
        have hne := h hload
        intro hnil
        rw [hnil] at hl
        exact hne (List.length_eq_zero.mp hl.symm)
      · intro hload
        rw [hv, isLoading_of_completed p c.view r hseg] at hload
        cases hload
  | loadTrending o =>
    cases o with
    | none => exact h
    | some movies => exact h

theorem run_preserves_loading {M T : Type} (events : List (Event M T)) (c : Controller M T)
    (h : c.view.isLoading = true → c.outstanding ≠ []) :
    (c.run events).view.isLoading = true → (c.run events).outstanding ≠ [] := by
  induction events generalizing c with
  | nil => exact h
  | cons e es ih => exact ih (c.step e) (step_preserves_loading c e h)

/-- C8: in every state the controller reaches from its initial state, by any
sequence of search starts and segments of outstanding calls (and edits,
debounce firings and trending loads), `isLoading` is true only if a search is
outstanding; and every completed call of `fetchMovies`, and every completion
of a suspended call, leaves `isLoading` false. -/
theorem loading_only_while_outstanding {M T : Type} (events : List (Event M T))
    (query url : JSString) (w : World M) (s : ViewState M T) :
    ((Controller.run Controller.initial events).view.isLoading = true →
      (Controller.run Controller.initial events).outstanding ≠ []) ∧
    (fetchMovies query w s).view.isLoading = false ∧
    (fetchMoviesResume query url w s).view.isLoading = false :=
  ⟨run_preserves_loading events Controller.initial (by simp [Controller.initial,
      ViewState.initial]),
    isLoading_fetchMovies query w s, isLoading_catchFinally _⟩

/-- Witness of C8: after `dune` is searched and before its response arrives
the flag is set and the call is outstanding. -/
theorem loading_only_while_outstanding_witness :
    (Controller.run (Controller.initial : Controller Nat Nat)
      [.search (utf16 "dune") World.offline]).view.isLoading = true ∧
    (Controller.run (Controller.initial : Controller Nat Nat)
      [.search (utf16 "dune") World.offline]).outstanding ≠ [] :=
  ⟨by decide,
    (loading_only_while_outstanding [.search (utf16 "dune") World.offline] [] []
      World.offline (ViewState.initial : ViewState Nat Nat)).1 (by decide)⟩

/-! ## C10: the trending list -/

/-- C10: from the initial view state, when `getTrendingMovies` rejects,
`loadTrendingMovies` completes without raising, the trending list is empty,
and `errorMessage`, movies and `isLoading` are unchanged. -/
theorem loadTrendingMovies_failure_swallowed {M T : Type} :
    (loadTrendingMovies none (ViewState.initial : ViewState M T)).rejected = false ∧
    (loadTrendingMovies none (ViewState.initial : ViewState M T)).view.trendingMovies = [] ∧
    (loadTrendingMovies none (ViewState.initial : ViewState M T)).view.errorMessage =
      (ViewState.initial : ViewState M T).errorMessage ∧
    (loadTrendingMovies none (ViewState.initial : ViewState M T)).view.movies =
      (ViewState.initial : ViewState M T).movies ∧
    (loadTrendingMovies none (ViewState.initial : ViewState M T)).view.isLoading =
      (ViewState.initial : ViewState M T).isLoading :=
  ⟨rfl, rfl, rfl, rfl, rfl⟩

end MovieLand
